import Mathlib

/-!
Verification of the kingsway job-listing application.

The development shallowly embeds the two screens of the application:
the listing screen (`JobsPage.jsx`: the `locations` selector list and the
`filteredJobs` filter) and the assist screen (`ApplyWithAI`: the
`generateLetter`, `rewriteAsCv`, `modifyLetter` and `validateCv` actions).
JavaScript strings become Lean `String`s, absent object fields become
`Option`, and the `fetch` round trips become explicit `NetResult` inputs.
-/

namespace Kingsway

/-- JavaScript `s.toLowerCase()` (ASCII case mapping, as `Char.toLower`). -/
def jsToLower (s : String) : String :=
  String.mk (s.toList.map Char.toLower)

/-- JavaScript `s.trim()`: drop whitespace from both ends. -/
def jsTrim (s : String) : String :=
  String.mk (((s.toList.dropWhile Char.isWhitespace).reverse.dropWhile
    Char.isWhitespace).reverse)

/-- Containment of `needle` as a contiguous sublist of `hay`. -/
def jsIncludesAux (hay needle : List Char) : Bool :=
  needle.isPrefixOf hay ||
    match hay with
    | [] => false
    | _ :: t => jsIncludesAux t needle

/-- JavaScript `hay.includes(needle)`: substring containment. -/
def jsIncludes (hay needle : String) : Bool :=
  jsIncludesAux hay.toList needle.toList

/-- JavaScript `o || d` for a possibly-absent string `o`: the default `d` is
used when `o` is `undefined` or the (falsy) empty string. -/
def jsOr (o : Option String) (d : String) : String :=
  match o with
  | none => d
  | some s => if s == "" then d else s

/-- A job record from the static dataset. Fields the filtering logic reads are
`Option`s because the JSON records may omit them (`j.job_title || ""`,
`j?.discovery_input?.location`). `location` stands for
`discovery_input.location`. -/
structure Job where
  job_title : Option String
  company_name : Option String
  location : Option String
  description : Option String
  apply_link : Option String
deriving DecidableEq, Repr

/-- The query half of the `filteredJobs` predicate (`JobsPage.jsx` line 85):
`!query || title.includes(query) || company.includes(query) ||
location.includes(query)` where `query = q.trim().toLowerCase()` and the
fields are lowercased with `|| ""` defaults. -/
def matchQuery (q : String) (j : Job) : Bool :=
  let query := jsToLower (jsTrim q)
  let title := jsToLower (jsOr j.job_title "")
  let company := jsToLower (jsOr j.company_name "")
  let location := jsToLower (jsOr j.location "")
  query == "" || jsIncludes title query || jsIncludes company query ||
    jsIncludes location query

/-- The location half of the `filteredJobs` predicate (`JobsPage.jsx` line 86):
`loc === "All" || location === loc.toLowerCase()`. -/
def matchLoc (loc : String) (j : Job) : Bool :=
  loc == "All" || jsToLower (jsOr j.location "") == jsToLower loc

/-- `filteredJobs` (`JobsPage.jsx` lines 79-89): keep the jobs satisfying both
halves, in input order. -/
def filteredJobs (jobs : List Job) (q loc : String) : List Job :=
  jobs.filter (fun j => matchQuery q j && matchLoc loc j)

/-- The filter described by the claim's own words, for comparison with
`filteredJobs`: (a) unless the sentinel `"All"` is selected the job's
location equals the selected location case-insensitively, and (b) when the
query is non-empty (the raw query, no trimming) the lowercased query is a
substring of the lowercased title, company name, or location. -/
def claimFilter (jobs : List Job) (q loc : String) : List Job :=
  jobs.filter (fun j =>
    (loc == "All" || jsToLower (jsOr j.location "") == jsToLower loc) &&
    (q == "" || jsIncludes (jsToLower (jsOr j.job_title "")) (jsToLower q) ||
      jsIncludes (jsToLower (jsOr j.company_name "")) (jsToLower q) ||
      jsIncludes (jsToLower (jsOr j.location "")) (jsToLower q)))

/-- The amended filter: as `claimFilter`, but the query is trimmed before the
emptiness test and the substring match, as the source does. -/
def specFilter (jobs : List Job) (q loc : String) : List Job :=
  jobs.filter (fun j =>
    (loc == "All" || jsToLower (jsOr j.location "") == jsToLower loc) &&
    (jsTrim q == "" ||
      jsIncludes (jsToLower (jsOr j.job_title "")) (jsToLower (jsTrim q)) ||
      jsIncludes (jsToLower (jsOr j.company_name "")) (jsToLower (jsTrim q)) ||
      jsIncludes (jsToLower (jsOr j.location "")) (jsToLower (jsTrim q))))

/-- The present location values of a job array, in input order
(`JobsPage.jsx` line 75): `jobs.map(j => j?.discovery_input?.location)
.filter(Boolean)` — absent and empty-string locations are dropped. -/
def presentLocations (jobs : List Job) : List String :=
  jobs.filterMap (fun j =>
    match j.location with
    | none => none
    | some s => if s == "" then none else some s)

/-- Lexical order on character lists, comparing code points. -/
def charListLe : List Char → List Char → Bool
  | [], _ => true
  | _ :: _, [] => false
  | a :: as, b :: bs => if a = b then charListLe as bs else decide (a < b)

/-- The sort comparator of `JobsPage.jsx` line 76, `(a,b) => a.localeCompare(b)`,
modelled as the lexical order on strings. -/
def strLe (a b : String) : Bool :=
  charListLe a.toList b.toList

/-- Insert into a `strLe`-sorted list, keeping it sorted. -/
def orderedInsertStr (x : String) : List String → List String
  | [] => [x]
  | y :: ys => if strLe x y then x :: y :: ys else y :: orderedInsertStr x ys

/-- `l.sort((a,b) => a.localeCompare(b))`: insertion sort by `strLe`. -/
def sortStrings : List String → List String
  | [] => []
  | x :: xs => orderedInsertStr x (sortStrings xs)

/-- Deduplication in first-occurrence order, as iterating a JS `Set` built by
insertion does; `seen` holds the values already emitted. -/
def dedupAux (seen : List String) : List String → List String
  | [] => []
  | x :: xs =>
      if x ∈ seen then dedupAux seen xs else x :: dedupAux (x :: seen) xs

/-- `Array.from(new Set(l))`: first occurrences, in order. -/
def jsSetList (l : List String) : List String := dedupAux [] l

/-- `locations` (`JobsPage.jsx` lines 74-77): deduplicate the present location
values, sort them (the `localeCompare` comparator, modelled as the lexical
order on strings), and prepend the `"All"` sentinel. -/
def locations (jobs : List Job) : List String :=
  "All" :: sortStrings (jsSetList (presentLocations jobs))

/-!  The assist screen (`ApplyWithAI`).  -/

/-- The parsed body of a `/api/validate-cv` response: `{score, enough,
advice}`.  `enough` and `advice` are `Option`s because the code guards them
(`review.enough === false`, `review.advice || "..."`). -/
structure CvReview where
  score : Nat
  enough : Option Bool
  advice : Option String
deriving DecidableEq, Repr

/-- Outcome of one `fetch` round trip: either the parsed success payload, or
any failure (non-ok HTTP status, network error, unparsable body) — the code
funnels all of these into a single `catch`. -/
inductive NetResult (α : Type) where
  | success (val : α)
  | failure
deriving DecidableEq, Repr

/-- The endpoints the assist screen posts to. -/
inductive Endpoint where
  | coverLetter
  | rewriteToCv
  | editLetter
  | validateCv
deriving DecidableEq, Repr

/-- The assist screen's `useState` slots that the four actions read or
write. -/
structure AssistState where
  cv : String
  letter : String
  rewrittenCv : String
  error : String
  loading : Bool
  cvReview : Option CvReview
deriving DecidableEq, Repr

/-- The assist screen's state right after mounting: every `useState` starts
from `""`/`false`/`null`. -/
def initialAssistState : AssistState :=
  { cv := "", letter := "", rewrittenCv := "", error := "", loading := false,
    cvReview := none }

/-- A log of the requests an action issued: each endpoint paired with the
state current at the moment the request went out. -/
abbrev CallLog := List (Endpoint × AssistState)

/-- `validateCv` (lines 138-163): posts to `/api/validate-cv`; on success
stores the parsed review in `cvReview` and returns it, on any failure sets
`error` to `"CV validation failed."` and returns `null`.  It never touches
the `loading` flag.  Results: (new state, returned review), call log. -/
def validateCvRun (s : AssistState) (r : NetResult CvReview) :
    (AssistState × Option CvReview) × CallLog :=
  match r with
  | .success data => (({ s with cvReview := some data }, some data),
      [(.validateCv, s)])
  | .failure => (({ s with error := "CV validation failed." }, none),
      [(.validateCv, s)])

/-- The error message `generateLetter` shows when validation reports an
insufficient CV (lines 37-41): the score interpolated into the template,
followed by the advice or its fallback. -/
def insufficientMsg (r : CvReview) : String :=
  "Your CV seems incomplete for this JD (score " ++ toString r.score ++
    "). " ++ jsOr r.advice "Please add more detail."

/-- The state from which `generateLetter` proceeds (lines 27-29): loading on,
error and letter cleared. -/
def generateLetterStart (s : AssistState) : AssistState :=
  { s with loading := true, error := "", letter := "" }

/-- `generateLetter` (lines 25-70): clear letter/error and set loading; run
`validateCv` first; stop if it failed or reported `enough === false`
(setting the advice message); otherwise post to `/api/cover-letter` and
either store the returned letter or set the fixed failure message; the
`finally` clause always clears `loading`. -/
def generateLetterRun (s : AssistState) (vr : NetResult CvReview)
    (gr : NetResult String) : AssistState × CallLog :=
  let s1 := generateLetterStart s
  match validateCvRun s1 vr with
  | ((s2, none), log) => ({ s2 with loading := false }, log)
  | ((s2, some review), log) =>
      if review.enough = some false then
        ({ s2 with error := insufficientMsg review, loading := false }, log)
      else
        match gr with
        | .success letterText =>
            ({ s2 with letter := letterText, loading := false },
              log ++ [(.coverLetter, s2)])
        | .failure =>
            ({ s2 with error := "Failed to generate letter.", loading := false },
              log ++ [(.coverLetter, s2)])

/-- The state from which `rewriteAsCv` proceeds (lines 75-77). -/
def rewriteAsCvStart (s : AssistState) : AssistState :=
  { s with loading := true, error := "", rewrittenCv := "" }

/-- `rewriteAsCv` (lines 73-103): set loading, clear error and the previous
rewritten CV, post to `/api/rewrite-to-cv`, store the returned CV or set
`"Failed to rewrite CV."`, always clear loading. -/
def rewriteAsCvRun (s : AssistState) (r : NetResult String) :
    AssistState × CallLog :=
  let s1 := rewriteAsCvStart s
  match r with
  | .success cvText =>
      ({ s1 with rewrittenCv := cvText, loading := false },
        [(.rewriteToCv, s1)])
  | .failure =>
      ({ s1 with error := "Failed to rewrite CV.", loading := false },
        [(.rewriteToCv, s1)])

/-- The state from which `modifyLetter` proceeds (lines 108-109): the current
letter is not cleared. -/
def modifyLetterStart (s : AssistState) : AssistState :=
  { s with loading := true, error := "" }

/-- `modifyLetter` (lines 106-136): set loading, clear error, post to
`/api/edit-letter`, replace the letter with the edited one or set
`"Failed to modify letter."`, always clear loading. -/
def modifyLetterRun (s : AssistState) (r : NetResult String) :
    AssistState × CallLog :=
  let s1 := modifyLetterStart s
  match r with
  | .success letterText =>
      ({ s1 with letter := letterText, loading := false },
        [(.editLetter, s1)])
  | .failure =>
      ({ s1 with error := "Failed to modify letter.", loading := false },
        [(.editLetter, s1)])

/-- The mount effect of the assist screen (lines 20-23): `if (!job)
navigate("/")`.  `true` means a redirect to the listing screen is issued;
a job object (always truthy in JS) never redirects. -/
def applyWithAIRedirects (navJob : Option Job) : Bool :=
  navJob.isNone

/-!  Lemmas about the string helpers.  -/

lemma jsToLower_eq_empty (s : String) : jsToLower s = "" ↔ s = "" := by
  cases s with
  | mk data =>
      simp only [jsToLower, String.toList, String.ext_iff]
      show data.map Char.toLower = [] ↔ data = []
      simp

lemma jsToLower_beq_empty (s : String) : (jsToLower s == "") = (s == "") := by
  by_cases h : s = ""
  · subst h; rfl
  · have h2 : jsToLower s ≠ "" := fun hh => h ((jsToLower_eq_empty s).1 hh)
    rw [beq_eq_false_iff_ne.mpr h2, beq_eq_false_iff_ne.mpr h]

/-!  The filtering claims.  -/

lemma jobPred_eq_specPred (q loc : String) (j : Job) :
    (matchQuery q j && matchLoc loc j) =
    ((loc == "All" || jsToLower (jsOr j.location "") == jsToLower loc) &&
      (jsTrim q == "" ||
        jsIncludes (jsToLower (jsOr j.job_title "")) (jsToLower (jsTrim q)) ||
        jsIncludes (jsToLower (jsOr j.company_name ""))
          (jsToLower (jsTrim q)) ||
        jsIncludes (jsToLower (jsOr j.location "")) (jsToLower (jsTrim q)))) := by
  simp only [matchQuery, matchLoc, jsToLower_beq_empty]
  exact Bool.and_comm _ _

/-- C1 (counterexample): the claim reads the raw query, but the code trims it
first. With the whitespace-only query `" "` and the `"All"` location, the
code keeps a job whose lowercased title, company and location contain no
space, while the claim's filter discards it. -/
theorem claim_C1_counterexample :
    filteredJobs [⟨some "abc", some "xyz", some "london", none, none⟩]
        " " "All" ≠
      claimFilter [⟨some "abc", some "xyz", some "london", none, none⟩]
        " " "All" := by
  decide

/-- C1 (amended): for every job array and every (query, location) pair, the
filter returns exactly the subset of jobs where (a) when a location other
than the `"All"` sentinel is selected, the job's location equals it
case-insensitively, and (b) when the trimmed query is non-empty, the trimmed
lowercased query is a substring of the lowercased title, company name, or
location; input order is preserved (both sides are a `List.filter` of the
input). -/
theorem claim_C1_filter (jobs : List Job) (q loc : String) :
    filteredJobs jobs q loc = specFilter jobs q loc := by
  unfold filteredJobs specFilter
  exact List.filter_congr fun j _ => jobPred_eq_specPred q loc j

/-- C5: with the empty query and the `"All"` sentinel the filter is the
identity — it returns the input list unchanged, element for element. -/
theorem claim_C5_identity (jobs : List Job) :
    filteredJobs jobs "" "All" = jobs := by
  unfold filteredJobs
  exact List.filter_eq_self.mpr fun j _ => rfl

/-- C6: the query criterion and the location criterion commute as filters —
filtering by query then location equals filtering by location then query,
and both equal the combined `filteredJobs`. -/
theorem claim_C6_commute (jobs : List Job) (q loc : String) :
    ((jobs.filter (matchQuery q)).filter (matchLoc loc) =
      (jobs.filter (matchLoc loc)).filter (matchQuery q)) ∧
    (jobs.filter (matchQuery q)).filter (matchLoc loc) =
      filteredJobs jobs q loc := by
  constructor
  · rw [List.filter_filter, List.filter_filter]
    exact List.filter_congr fun j _ => Bool.and_comm _ _
  · rw [List.filter_filter]
    exact List.filter_congr fun j _ => Bool.and_comm _ _

/-!  Lemmas about the comparator, the insertion sort and the dedup pass.  -/

lemma charListLe_total (as : List Char) :
    ∀ bs, charListLe as bs = true ∨ charListLe bs as = true := by
  induction as with
  | nil => intro bs; left; rfl
  | cons a as ih =>
      intro bs
      cases bs with
      | nil => right; rfl
      | cons b bs =>
          by_cases hab : a = b
          · subst hab
            simpa [charListLe] using ih bs
          · rcases lt_trichotomy a b with h | h | h
            · left; simp [charListLe, hab, h]
            · exact absurd h hab
            · right; simp [charListLe, Ne.symm hab, h, not_lt_of_gt h]

lemma strLe_total (a b : String) : strLe a b = true ∨ strLe b a = true :=
  charListLe_total a.toList b.toList

lemma perm_orderedInsertStr (x : String) (l : List String) :
    List.Perm (orderedInsertStr x l) (x :: l) := by
  induction l with
  | nil => exact List.Perm.refl _
  | cons y ys ih =>
      by_cases h : strLe x y = true
      · simp [orderedInsertStr, h]
      · simp only [orderedInsertStr, if_neg h]
        exact (ih.cons y).trans (List.Perm.swap x y ys)

lemma perm_sortStrings (l : List String) : List.Perm (sortStrings l) l := by
  induction l with
  | nil => exact List.Perm.refl _
  | cons x xs ih =>
      exact (perm_orderedInsertStr x (sortStrings xs)).trans (ih.cons x)

lemma mem_sortStrings (x : String) (l : List String) :
    x ∈ sortStrings l ↔ x ∈ l :=
  (perm_sortStrings l).mem_iff

lemma chain_orderedInsertStr (x : String) (l : List String)
    (h : l.Chain' (fun a b => strLe a b = true)) :
    (orderedInsertStr x l).Chain' (fun a b => strLe a b = true) := by
  induction l with
  | nil => simp [orderedInsertStr]
  | cons y ys ih =>
      by_cases hxy : strLe x y = true
      · simpa [orderedInsertStr, hxy] using h
      · have hyx : strLe y x = true := (strLe_total x y).resolve_left hxy
        simp only [orderedInsertStr, if_neg hxy]
        have hys : ys.Chain' (fun a b => strLe a b = true) := h.tail
        refine List.chain'_cons'.mpr ⟨?_, ih hys⟩
        intro z hz
        cases ys with
        | nil =>
            simp [orderedInsertStr] at hz
            subst hz; exact hyx
        | cons w ws =>
            by_cases hxw : strLe x w = true
            · simp [orderedInsertStr, hxw] at hz
              subst hz; exact hyx
            · simp [orderedInsertStr, hxw] at hz
              subst hz
              exact (List.chain'_cons.mp h).1

lemma sorted_sortStrings (l : List String) :
    (sortStrings l).Chain' (fun a b => strLe a b = true) := by
  induction l with
  | nil => simp [sortStrings]
  | cons x xs ih => exact chain_orderedInsertStr x (sortStrings xs) ih

lemma mem_dedupAux (x : String) :
    ∀ (l seen : List String), x ∈ dedupAux seen l ↔ x ∈ l ∧ x ∉ seen := by
  intro l
  induction l with
  | nil => intro seen; simp [dedupAux]
  | cons y ys ih =>
      intro seen
      by_cases hy : y ∈ seen
      · rw [show dedupAux seen (y :: ys) = dedupAux seen ys from by
          simp [dedupAux, hy]]
        rw [ih seen]
        constructor
        · exact fun ⟨h1, h2⟩ => ⟨List.mem_cons_of_mem y h1, h2⟩
        · rintro ⟨h1, h2⟩
          rcases List.mem_cons.mp h1 with rfl | h1
          · exact absurd hy h2
          · exact ⟨h1, h2⟩
      · rw [show dedupAux seen (y :: ys) = y :: dedupAux (y :: seen) ys from by
          simp [dedupAux, hy]]
        rw [List.mem_cons, ih (y :: seen)]
        constructor
        · rintro (rfl | ⟨h1, h2⟩)
          · exact ⟨List.mem_cons_self x ys, hy⟩
          · exact ⟨List.mem_cons_of_mem y h1,
              fun hx => h2 (List.mem_cons_of_mem y hx)⟩
        · rintro ⟨h1, h2⟩
          rcases List.mem_cons.mp h1 with rfl | h1
          · exact Or.inl rfl
          · by_cases hxy : x = y
            · exact Or.inl hxy
            · exact Or.inr ⟨h1, fun hx => by
                rcases List.mem_cons.mp hx with h | h
                · exact hxy h
                · exact h2 h⟩

lemma nodup_dedupAux : ∀ (l seen : List String), (dedupAux seen l).Nodup := by
  intro l
  induction l with
  | nil => intro seen; simp [dedupAux]
  | cons y ys ih =>
      intro seen
      by_cases hy : y ∈ seen
      · simpa [dedupAux, hy] using ih seen
      · rw [show dedupAux seen (y :: ys) = y :: dedupAux (y :: seen) ys from by
          simp [dedupAux, hy]]
        refine List.nodup_cons.mpr ⟨?_, ih (y :: seen)⟩
        intro hmem
        exact ((mem_dedupAux y ys (y :: seen)).1 hmem).2 (List.mem_cons_self y seen)

lemma mem_jsSetList (x : String) (l : List String) :
    x ∈ jsSetList l ↔ x ∈ l := by
  rw [jsSetList, mem_dedupAux]
  simp

lemma nodup_jsSetList (l : List String) : (jsSetList l).Nodup :=
  nodup_dedupAux l []

/-!  The location-selector claim.  -/

/-- C4 (counterexample): the code prepends the `"All"` sentinel to the sorted
distinct location values unconditionally, so a job array whose location
values are `"All"` and `"Aberdeen"` yields `["All", "Aberdeen", "All"]` — a
list with a duplicate (and not sorted as a whole). -/
theorem claim_C4_counterexample :
    locations [⟨none, none, some "All", none, none⟩,
        ⟨none, none, some "Aberdeen", none, none⟩] =
      ["All", "Aberdeen", "All"] ∧
    ¬ (locations [⟨none, none, some "All", none, none⟩,
        ⟨none, none, some "Aberdeen", none, none⟩]).Nodup := by
  constructor
  · decide
  · decide

/-- C4 (amended): for every job array, the location selector list is the
`"All"` sentinel followed by a tail that is sorted by the lexical
comparator, has no duplicates, and consists of exactly the present
(non-empty) location values of the jobs; when no job's location value is
itself `"All"`, the whole list has no duplicates. (The whole list is not
sorted in general, since the sentinel is prepended regardless of order.) -/
theorem claim_C4_locations (jobs : List Job) :
    locations jobs = "All" :: (locations jobs).tail ∧
    ((locations jobs).tail).Chain' (fun a b => strLe a b = true) ∧
    ((locations jobs).tail).Nodup ∧
    (∀ x, x ∈ (locations jobs).tail ↔ x ∈ presentLocations jobs) ∧
    ("All" ∉ presentLocations jobs → (locations jobs).Nodup) := by
  have htail : (locations jobs).tail =
      sortStrings (jsSetList (presentLocations jobs)) := rfl
  have hmem : ∀ x, x ∈ (locations jobs).tail ↔ x ∈ presentLocations jobs := by
    intro x
    rw [htail, mem_sortStrings, mem_jsSetList]
  have hnodup : ((locations jobs).tail).Nodup := by
    rw [htail]
    exact ((perm_sortStrings _).nodup_iff).mpr
      (nodup_jsSetList (presentLocations jobs))
  refine ⟨rfl, ?_, hnodup, hmem, ?_⟩
  · rw [htail]; exact sorted_sortStrings _
  · intro hall
    refine List.nodup_cons.mpr ⟨?_, hnodup⟩
    intro hmem'
    exact hall ((hmem "All").1 hmem')

/-- C4 (witness): on a one-job array located in London the amended theorem
yields the concrete selector list with its sentinel, sortedness and
freedom from duplicates. -/
theorem claim_C4_witness :
    ("All" ∉ presentLocations [⟨none, none, some "London", none, none⟩]) ∧
    (locations [⟨none, none, some "London", none, none⟩]).Nodup ∧
    ("London" ∈ (locations [⟨none, none, some "London", none, none⟩]).tail) := by
  have h := claim_C4_locations [⟨none, none, some "London", none, none⟩]
  have hall : "All" ∉ presentLocations
      [(⟨none, none, some "London", none, none⟩ : Job)] := by decide
  exact ⟨hall, h.2.2.2.2 hall, (h.2.2.2.1 "London").2 (by decide)⟩

/-!  The assist-screen claims.  -/

/-- C2: when the validation response carries `enough = false`, the
generate-letter flow issues no `/api/cover-letter` request (whatever that
request's outcome would have been) and sets the error to the advice
template interpolating the score and the advice text. -/
theorem claim_C2_insufficient (s : AssistState) (r : CvReview)
    (gr : NetResult String) (h : r.enough = some false) :
    Endpoint.coverLetter ∉
      ((generateLetterRun s (.success r) gr).2.map Prod.fst) ∧
    (generateLetterRun s (.success r) gr).1.error = insufficientMsg r := by
  simp [generateLetterRun, validateCvRun, h]

/-- C2 (witness): a concrete insufficient review (score 3) blocks the
generation request and surfaces the advice message. -/
theorem claim_C2_witness :
    (⟨3, some false, some "Add skills"⟩ : CvReview).enough = some false ∧
    (Endpoint.coverLetter ∉
      ((generateLetterRun initialAssistState
        (.success ⟨3, some false, some "Add skills"⟩) .failure).2.map
          Prod.fst) ∧
    (generateLetterRun initialAssistState
        (.success ⟨3, some false, some "Add skills"⟩) .failure).1.error =
      insufficientMsg ⟨3, some false, some "Add skills"⟩) :=
  ⟨by decide,
    claim_C2_insufficient initialAssistState ⟨3, some false, some "Add skills"⟩
      .failure (by decide)⟩

/-- C3: for each request kind, any failed round trip (non-ok HTTP status,
network error, unparsable body — all funnelled into the single `catch`) sets
the error to that request's fixed message, and the request is issued exactly
once (no retry): the generation request inside generate-letter, the
validation request (inside generate-letter or standalone), the rewrite
request and the edit request. -/
theorem claim_C3_failures (s : AssistState) (r : CvReview)
    (gr : NetResult String) (h : r.enough ≠ some false) :
    ((generateLetterRun s (.success r) .failure).1.error =
        "Failed to generate letter." ∧
      ((generateLetterRun s (.success r) .failure).2.map Prod.fst) =
        [.validateCv, .coverLetter]) ∧
    ((generateLetterRun s .failure gr).1.error = "CV validation failed." ∧
      ((generateLetterRun s .failure gr).2.map Prod.fst) = [.validateCv]) ∧
    ((rewriteAsCvRun s .failure).1.error = "Failed to rewrite CV." ∧
      ((rewriteAsCvRun s .failure).2.map Prod.fst) = [.rewriteToCv]) ∧
    ((modifyLetterRun s .failure).1.error = "Failed to modify letter." ∧
      ((modifyLetterRun s .failure).2.map Prod.fst) = [.editLetter]) ∧
    ((validateCvRun s .failure).1.1.error = "CV validation failed." ∧
      ((validateCvRun s .failure).2.map Prod.fst) = [.validateCv]) := by
  refine ⟨?_, ?_, ?_, ?_, ?_⟩
  · constructor
    · simp [generateLetterRun, validateCvRun, h]
    · simp [generateLetterRun, validateCvRun, h]
  · constructor
    · simp [generateLetterRun, validateCvRun]
    · simp [generateLetterRun, validateCvRun]
  · exact ⟨rfl, rfl⟩
  · exact ⟨rfl, rfl⟩
  · exact ⟨rfl, rfl⟩

/-- C3 (witness): the failure messages and single-shot call logs at the
initial state, with a sufficient review (score 7, `enough = true`). -/
theorem claim_C3_witness :
    ((⟨7, some true, none⟩ : CvReview).enough ≠ some false) ∧
    ((generateLetterRun initialAssistState (.success ⟨7, some true, none⟩)
        .failure).1.error = "Failed to generate letter." ∧
      (rewriteAsCvRun initialAssistState .failure).1.error =
        "Failed to rewrite CV." ∧
      (modifyLetterRun initialAssistState .failure).1.error =
        "Failed to modify letter." ∧
      (validateCvRun initialAssistState .failure).1.1.error =
        "CV validation failed.") := by
  have h := claim_C3_failures initialAssistState ⟨7, some true, none⟩
    (NetResult.success "") (by decide)
  exact ⟨by decide, h.1.1, h.2.2.1.1, h.2.2.2.1.1, h.2.2.2.2.1⟩

/-- C7: a successful generate-letter round trip whose response body carries
letter `x`, after a validation response whose `enough` field is not `false`,
leaves `x` as the displayed letter state. -/
theorem claim_C7_letter (s : AssistState) (r : CvReview) (x : String)
    (h : r.enough ≠ some false) :
    (generateLetterRun s (.success r) (.success x)).1.letter = x := by
  simp [generateLetterRun, validateCvRun, h]

/-- C7 (witness): with a sufficient review and response `{letter:"X"}` the
displayed letter is `"X"`. -/
theorem claim_C7_witness :
    ((⟨7, some true, none⟩ : CvReview).enough ≠ some false) ∧
    (generateLetterRun initialAssistState (.success ⟨7, some true, none⟩)
      (.success "X")).1.letter = "X" :=
  ⟨by decide,
    claim_C7_letter initialAssistState ⟨7, some true, none⟩ "X" (by decide)⟩

/-- C8: the assist screen's mount effect redirects to the listing screen
exactly when no job object arrived in the navigation state; when it does not
redirect, a selected job is present. -/
theorem claim_C8_redirect (o : Option Job) :
    (applyWithAIRedirects o = true ↔ o = none) ∧
    (applyWithAIRedirects o = false ↔ ∃ j, o = some j) := by
  cases o <;> simp [applyWithAIRedirects]

/-- C8 (witness): with a concrete job in the navigation state the screen
stays, and with none it redirects. -/
theorem claim_C8_witness :
    applyWithAIRedirects (some ⟨none, none, none, none, none⟩) = false ∧
    applyWithAIRedirects (none : Option Job) = true :=
  ⟨(claim_C8_redirect (some ⟨none, none, none, none, none⟩)).2.mpr
      ⟨_, rfl⟩,
    (claim_C8_redirect none).1.mpr rfl⟩

/-- C9 (counterexample): the claim says all four actions set the shared
loading flag to true for the duration of their request, but `validateCv`
never touches the flag — run standalone from the initial state, its request
goes out with `loading` still `false`. -/
theorem claim_C9_counterexample :
    ¬ (∀ p ∈ (validateCvRun initialAssistState NetResult.failure).2,
        p.2.loading = true) := by
  decide

/-- C9 (amended): generate-letter, rewrite-résumé and edit-letter each issue
all their requests with the loading flag true and end with it false,
whether the round trips succeed or fail; `validateCv` itself leaves the
flag untouched (both at request time and on completion), so it holds the
flag true only when called from inside generate-letter, which has already
set it. -/
theorem claim_C9_loading (s : AssistState) (vr : NetResult CvReview)
    (gr rr mr : NetResult String) (r : NetResult CvReview) :
    ((∀ p ∈ (generateLetterRun s vr gr).2, p.2.loading = true) ∧
      (generateLetterRun s vr gr).1.loading = false) ∧
    ((∀ p ∈ (rewriteAsCvRun s rr).2, p.2.loading = true) ∧
      (rewriteAsCvRun s rr).1.loading = false) ∧
    ((∀ p ∈ (modifyLetterRun s mr).2, p.2.loading = true) ∧
      (modifyLetterRun s mr).1.loading = false) ∧
    ((∀ p ∈ (validateCvRun s r).2, p.2.loading = s.loading) ∧
      (validateCvRun s r).1.1.loading = s.loading) := by
  refine ⟨⟨?_, ?_⟩, ⟨?_, ?_⟩, ⟨?_, ?_⟩, ⟨?_, ?_⟩⟩
  · cases vr with
    | success r' =>
        by_cases h : r'.enough = some false
        · simp [generateLetterRun, validateCvRun, generateLetterStart, h]
        · cases gr <;>
            simp [generateLetterRun, validateCvRun, generateLetterStart, h]
    | failure => simp [generateLetterRun, validateCvRun, generateLetterStart]
  · cases vr with
    | success r' =>
        by_cases h : r'.enough = some false
        · simp [generateLetterRun, validateCvRun, h]
        · cases gr <;> simp [generateLetterRun, validateCvRun, h]
    | failure => simp [generateLetterRun, validateCvRun]
  · cases rr <;> simp [rewriteAsCvRun, rewriteAsCvStart]
  · cases rr <;> simp [rewriteAsCvRun]
  · cases mr <;> simp [modifyLetterRun, modifyLetterStart]
  · cases mr <;> simp [modifyLetterRun]
  · cases r <;> simp [validateCvRun]
  · cases r <;> simp [validateCvRun]

/-- C9 (witness): concrete runs from the initial state — generate-letter ends
with loading false, and a standalone validation leaves the initially-false
flag false. -/
theorem claim_C9_witness :
    (generateLetterRun initialAssistState
      (.success ⟨7, some true, none⟩) (.success "X")).1.loading = false ∧
    (validateCvRun initialAssistState .failure).1.1.loading =
      initialAssistState.loading := by
  have h := claim_C9_loading initialAssistState
    (.success ⟨7, some true, none⟩) (.success "X") .failure .failure .failure
  exact ⟨h.1.2, h.2.2.2.2⟩

/-- C10: generate-letter clears the letter state before validating, so on
every non-success path — validation round trip failed, validation reported
an insufficient résumé, or the generation round trip failed — the letter
state afterwards is the empty string; a previously displayed letter is not
preserved. -/
theorem claim_C10_letter_cleared (s : AssistState) (gr : NetResult String) :
    (generateLetterStart s).letter = "" ∧
    (generateLetterRun s .failure gr).1.letter = "" ∧
    (∀ r : CvReview, r.enough = some false →
      (generateLetterRun s (.success r) gr).1.letter = "") ∧
    (∀ r : CvReview, r.enough ≠ some false →
      (generateLetterRun s (.success r) .failure).1.letter = "") := by
  refine ⟨rfl, ?_, ?_, ?_⟩
  · simp [generateLetterRun, validateCvRun, generateLetterStart]
  · intro r h
    simp [generateLetterRun, validateCvRun, generateLetterStart, h]
  · intro r h
    simp [generateLetterRun, validateCvRun, generateLetterStart, h]

/-- C10 (witness): starting from a state that already displays a letter, both
an insufficient review and a failed generation round trip leave the letter
state empty. -/
theorem claim_C10_witness :
    (generateLetterRun { initialAssistState with letter := "old" }
      (.success ⟨3, some false, none⟩) .failure).1.letter = "" ∧
    (generateLetterRun { initialAssistState with letter := "old" }
      (.success ⟨7, some true, none⟩) .failure).1.letter = "" := by
  have h1 := claim_C10_letter_cleared
    { initialAssistState with letter := "old" } (NetResult.failure)
  exact ⟨h1.2.2.1 ⟨3, some false, none⟩ (by decide),
    h1.2.2.2 ⟨7, some true, none⟩ (by decide)⟩

end Kingsway
